import Mathlib

/-!
Verification of the birth-lottery weighted-draw pipeline.

The data pipeline (`fetch_data.php`) merges three World Bank indicator
tables and a country-metadata table into a list of country records with a
derived birth-count weight and a probability share; the client
(`app.js`) performs weighted random draws against that list
(`drawCountry`, `performTenDraw`).

Numeric values are modelled as exact rationals; PHP's half-away-from-zero
`round($x, $p)` is modelled exactly on `ℚ`.  PHP associative arrays are
modelled as insertion-ordered association lists with overwrite-on-rewrite
semantics, matching `$index[$key] = $value` and `foreach` iteration order.
-/

namespace BirthLottery

/-- PHP `empty($s)` on a string: the empty string and the string "0" are
the only falsy strings. -/
def phpEmpty (s : String) : Bool := s == "" || s == "0"

/-- Round half away from zero, PHP's default rounding mode. -/
def roundHalfAway (x : ℚ) : ℤ := if 0 ≤ x then ⌊x + 1/2⌋ else ⌈x - 1/2⌉

/-- PHP `round($x, $p)`. -/
def phpRound (x : ℚ) (p : ℕ) : ℚ := (roundHalfAway (x * 10 ^ p) : ℚ) / 10 ^ p

/-- One row of a World Bank indicator response: `countryiso3code` may be
absent (`isset` check in the source) and `value` may be `null`. -/
structure RawIndicatorRow where
  countryiso3code : Option String
  value : Option ℚ
  deriving DecidableEq

/-- One row of the World Bank country-metadata response; every field other
than `id` is defaulted to the empty string with `?? ''` in the source. -/
structure RawCountryRow where
  id : Option String
  name : Option String
  iso2Code : Option String
  regionValue : Option String
  incomeLevelValue : Option String
  capitalCity : Option String
  longitude : Option String
  latitude : Option String
  deriving DecidableEq

/-- The metadata stored in `$countryMap` for one country. -/
structure CountryMeta where
  name : String
  iso2Code : String
  region : String
  incomeLevel : String
  capitalCity : String
  longitude : String
  latitude : String
  deriving DecidableEq

/-- Lookup in a PHP-style association list (`isset($a[$k])` / `$a[$k]`). -/
def alookup (k : String) : List (String × α) → Option α
  | [] => none
  | (k₁, v) :: rest => if k = k₁ then some v else alookup k rest

/-- PHP `$a[$k] = $v`: overwrite in place when the key exists, else append
(insertion order is preserved, which is `foreach` iteration order). -/
def arraySet (a : List (String × α)) (k : String) (v : α) : List (String × α) :=
  if (alookup k a).isSome then
    a.map (fun p => if p.1 = k then (k, v) else p)
  else
    a ++ [(k, v)]

/-- Build `$birthRateIndex` / `$populationIndex` / `$gdpIndex`: keep rows
whose `countryiso3code` is set and whose `value` is non-null, keyed by the
ISO3 code (later rows for the same code overwrite earlier ones). -/
def buildIndex (rows : List RawIndicatorRow) : List (String × ℚ) :=
  rows.foldl
    (fun idx row =>
      match row.countryiso3code, row.value with
      | some k, some v => arraySet idx k v
      | _, _ => idx)
    []

/-- Build `$countryMap` from the metadata rows (keyed by `id`). -/
def buildCountryMap (rows : List RawCountryRow) : List (String × CountryMeta) :=
  rows.foldl
    (fun m row =>
      match row.id with
      | some k =>
          arraySet m k
            { name := row.name.getD ""
              iso2Code := row.iso2Code.getD ""
              region := row.regionValue.getD ""
              incomeLevel := row.incomeLevelValue.getD ""
              capitalCity := row.capitalCity.getD ""
              longitude := row.longitude.getD ""
              latitude := row.latitude.getD "" }
      | none => m)
    []

/-- One merged country record (an element of `$mergedData`, and of the
`countries` array of the JSON output).  The `probability` field is written
by the second pass of the builder; the merge loop itself leaves it `0`. -/
structure Country where
  id : String
  name : String
  iso2 : String
  region : String
  incomeLevel : String
  capital : String
  longitude : String
  latitude : String
  birthRate : ℚ
  population : ℚ
  gdpPerCapita : ℚ
  births : ℚ
  weight : ℚ
  probability : ℚ := 0
  deriving DecidableEq

/-- The body of the merge loop of `fetch_data.php` for one entry
`($countryId, $birthRate)` of `$birthRateIndex`: requires a population
entry and a metadata entry, defaults a missing GDP entry to `0`, skips
records whose `iso2Code` is empty or longer than two characters, computes
`births = rate * population / 1000`, and keeps the record only when
`births > 0 && population > 0`.  `births` is stored rounded to an integer
while the unrounded value is stored as `weight`. -/
def mergeCountry (popIdx gdpIdx : List (String × ℚ))
    (countryMap : List (String × CountryMeta)) (entry : String × ℚ) :
    Option Country :=
  match alookup entry.1 popIdx, alookup entry.1 countryMap with
  | some population, some meta =>
      let gdp := (alookup entry.1 gdpIdx).getD 0
      if phpEmpty meta.iso2Code || meta.iso2Code.length > 2 then none
      else
        let births := entry.2 * population / 1000
        if 0 < births ∧ 0 < population then
          some
            { id := entry.1
              name := meta.name
              iso2 := meta.iso2Code
              region := meta.region
              incomeLevel := meta.incomeLevel
              capital := meta.capitalCity
              longitude := meta.longitude
              latitude := meta.latitude
              birthRate := phpRound entry.2 2
              population := population
              gdpPerCapita := phpRound gdp 2
              births := phpRound births 0
              weight := births }
        else none
  | _, _ => none

/-- `$mergedData`: the merge loop iterates `$birthRateIndex` in order and
appends the records `mergeCountry` accepts. -/
def mergedData (birthIdx popIdx gdpIdx : List (String × ℚ))
    (countryMap : List (String × CountryMeta)) : List Country :=
  birthIdx.filterMap (mergeCountry popIdx gdpIdx countryMap)

/-- `$totalWeight` as accumulated by the merge loop: the sum of the
unrounded `weight` of every record that was appended to `$mergedData`. -/
def totalWeightOf (l : List Country) : ℚ := (l.map Country.weight).sum

/-- The second pass of the builder: assign each merged record
`probability = round(($weight / $totalWeight) * 100, 6)`. -/
def computeProbabilities (l : List Country) (totalWeight : ℚ) : List Country :=
  l.map fun c => { c with probability := phpRound (c.weight / totalWeight * 100) 6 }

/-- `usort` comparator `$b['births'] - $a['births']`: descending by
`births`. -/
def sortByBirths (l : List Country) : List Country :=
  l.mergeSort fun a b => b.births ≤ a.births

/-- The four raw inputs of `fetch_data.php`. -/
structure RawInput where
  birthRateData : List RawIndicatorRow
  populationData : List RawIndicatorRow
  gdpData : List RawIndicatorRow
  countryData : List RawCountryRow
  deriving DecidableEq

/-- The JSON output of `fetch_data.php` (the fields the core pipeline
determines). -/
structure Output where
  success : Bool
  totalCountries : ℕ
  totalBirths : ℚ
  countries : List Country
  deriving DecidableEq

/-- The whole builder pipeline of `fetch_data.php`: index the three
indicator tables, build the country map, merge, assign probabilities,
sort descending by `births`, and emit the output object. -/
def buildOutput (input : RawInput) : Output :=
  let countryMap := buildCountryMap input.countryData
  let birthRateIndex := buildIndex input.birthRateData
  let populationIndex := buildIndex input.populationData
  let gdpIndex := buildIndex input.gdpData
  let merged := mergedData birthRateIndex populationIndex gdpIndex countryMap
  let totalWeight := totalWeightOf merged
  let sorted := sortByBirths (computeProbabilities merged totalWeight)
  { success := true
    totalCountries := sorted.length
    totalBirths := phpRound totalWeight 0
    countries := sorted }

/-- The filter of `drawCountry` in `app.js`:
`c.region !== 'Aggregates' && c.iso2 && c.iso2.length === 2 &&
c.iso2.match(/^[A-Z]{2}$/)`. -/
def isRealCountry (c : Country) : Bool :=
  !(c.region == "Aggregates") && !(c.iso2 == "") && c.iso2.length == 2 &&
    c.iso2.toList.all fun ch => 'A' ≤ ch && ch ≤ 'Z'

/-- The sampler's own total:
`realCountries.reduce((sum, c) => sum + c.births, 0)` — note it sums the
rounded `births` field. -/
def totalWeightJS (countries : List Country) : ℚ :=
  ((countries.filter isRealCountry).map Country.births).sum

/-- The weighted-selection loop of `drawCountry`:
`random -= country.births; if (random <= 0) return country;`. -/
def drawLoop : List Country → ℚ → Option Country
  | [], _ => none
  | c :: rest, r => if r - c.births ≤ 0 then some c else drawLoop rest (r - c.births)

/-- `drawCountry` of `app.js`, parameterized by the random value
`r = Math.random() * totalWeight`: filter to real countries, run the
weighted-selection loop, and fall back to `realCountries[0]` (which is
`undefined`, i.e. `none`, when the filtered list is empty). -/
def drawCountry (countries : List Country) (r : ℚ) : Option Country :=
  let realCountries := countries.filter isRealCountry
  match drawLoop realCountries r with
  | some c => some c
  | none => realCountries.head?

/-- Modelled from the spec: the sampler §4.3 describes, which subtracts
each entry's unrounded `weight` from the running remainder (the source
`drawCountry` subtracts the rounded `births` field instead).  Used only to
compare the source sampler with the spec's description. -/
def drawLoopSpec : List Country → ℚ → Option Country
  | [], _ => none
  | c :: rest, r => if r - c.weight ≤ 0 then some c else drawLoopSpec rest (r - c.weight)

/-- Modelled from the spec: `drawOne` with the spec's weight-based
subtraction. -/
def drawCountrySpec (countries : List Country) (r : ℚ) : Option Country :=
  let realCountries := countries.filter isRealCountry
  match drawLoopSpec realCountries r with
  | some c => some c
  | none => realCountries.head?

/-- One element of the ten-draw result list: `{...result, rank: i + 1}`.
When `drawCountry` returns `undefined` the spread contributes nothing, so
the country component is an `Option`. -/
structure DrawResult where
  country : Option Country
  rank : ℕ
  deriving DecidableEq

/-- `performTenDraw` of `app.js`, parameterized by the sequence of random
values consumed by the successive `drawCountry` calls: ten independent
draws, the i-th tagged with `rank = i + 1`. -/
def performTenDraw (countries : List Country) (rands : ℕ → ℚ) : List DrawResult :=
  (List.range 10).map fun i => { country := drawCountry countries (rands i), rank := i + 1 }

/-- Sum of the `probability` field over a list of records. -/
def sumProb (l : List Country) : ℚ := (l.map Country.probability).sum

/-! Concrete inputs used to exercise the pipeline. -/

/-- Metadata row for an ordinary country. -/
def chnRow : RawCountryRow :=
  ⟨some "CHN", some "China", some "CN", some "East Asia & Pacific",
    some "Upper middle income", some "Beijing", some "116", some "40"⟩

/-- Metadata row for the World aggregate as the World Bank emits it: its
`iso2Code` is the two-character pseudo-code `1W` and its region is
`Aggregates`. -/
def wldRowIso2 : RawCountryRow :=
  ⟨some "WLD", some "World", some "1W", some "Aggregates", some "Aggregates",
    some "", some "", some ""⟩

/-- Metadata row for a World aggregate with an empty `iso2Code`. -/
def wldRowEmpty : RawCountryRow :=
  ⟨some "WLD", some "World", some "", some "Aggregates", some "Aggregates",
    some "", some "", some ""⟩

/-- A raw input holding one ordinary country and the World aggregate with
pseudo-code `1W`. -/
def c1Input : RawInput :=
  { birthRateData := [⟨some "CHN", some 10⟩, ⟨some "WLD", some 17⟩]
    populationData := [⟨some "CHN", some 1000000⟩, ⟨some "WLD", some 8000000⟩]
    gdpData := [⟨some "CHN", some 12000⟩]
    countryData := [chnRow, wldRowIso2] }

/-- A raw input holding one ordinary country and a World aggregate whose
`iso2Code` is empty. -/
def c6Input : RawInput :=
  { birthRateData := [⟨some "CHN", some 10⟩, ⟨some "WLD", some 17⟩]
    populationData := [⟨some "CHN", some 1000000⟩, ⟨some "WLD", some 8000000⟩]
    gdpData := []
    countryData := [chnRow, wldRowEmpty] }

/-- The merged record `buildOutput c6Input` produces for `CHN`. -/
def chnMerged : Country :=
  { id := "CHN", name := "China", iso2 := "CN", region := "East Asia & Pacific"
    incomeLevel := "Upper middle income", capital := "Beijing"
    longitude := "116", latitude := "40", birthRate := 10
    population := 1000000, gdpPerCapita := 0, births := 10000
    weight := 10000, probability := 100 }

/-- A merged-shaped record whose unrounded `weight` is `2/5`, so its
rounded `births` field is `0` (`round(0.4) = 0`). -/
def c2A : Country :=
  { id := "AAA", name := "Atlantis", iso2 := "AA", region := "RegionA"
    incomeLevel := "", capital := "", longitude := "", latitude := ""
    birthRate := 2/5, population := 1000, gdpPerCapita := 0
    births := 0, weight := 2/5 }

/-- A merged-shaped record whose unrounded `weight` is `3/5`, so its
rounded `births` field is `1` (`round(0.6) = 1`). -/
def c2B : Country :=
  { id := "BBB", name := "Borduria", iso2 := "BB", region := "RegionB"
    incomeLevel := "", capital := "", longitude := "", latitude := ""
    birthRate := 3/5, population := 1000, gdpPerCapita := 0
    births := 1, weight := 3/5 }

/-- A merged-shaped record with integer weight 2. -/
def c3A : Country :=
  { id := "CCC", name := "Cydonia", iso2 := "CC", region := "RegionC"
    incomeLevel := "", capital := "", longitude := "", latitude := ""
    birthRate := 2, population := 1000, gdpPerCapita := 0
    births := 2, weight := 2 }

/-- A merged-shaped record with integer weight 3. -/
def c3B : Country :=
  { id := "DDD", name := "Duloc", iso2 := "DD", region := "RegionD"
    incomeLevel := "", capital := "", longitude := "", latitude := ""
    birthRate := 3, population := 1000, gdpPerCapita := 0
    births := 3, weight := 3 }

/-- A raw input with no rows at all: the eligible set is empty. -/
def c4Input : RawInput :=
  { birthRateData := [], populationData := [], gdpData := [], countryData := [] }

/-- The i-th of 2560 equal-weight merged-shaped records (weight 1, distinct
ids). -/
def c5Entry (i : ℕ) : Country :=
  { id := toString i, name := "", iso2 := "AA", region := ""
    incomeLevel := "", capital := "", longitude := "", latitude := ""
    birthRate := 1, population := 1000, gdpPerCapita := 0
    births := 1, weight := 1 }

/-- 2560 equal-weight merged-shaped records: each probability share is
`100/2560 = 0.0390625`, whose sixth decimal rounds up, so the rounding
drift accumulates to `0.00128`. -/
def c5List : List Country := (List.range 2560).map c5Entry

/-- Metadata row for a tiny country. -/
def aaaRow : RawCountryRow :=
  ⟨some "AAA", some "Atlantis", some "AA", some "RegionA", some "",
    some "", some "", some ""⟩

/-- Metadata row for a huge country. -/
def bbbRow : RawCountryRow :=
  ⟨some "BBB", some "Borduria", some "BB", some "RegionB", some "",
    some "", some "", some ""⟩

/-- A raw input with one tiny country (unrounded births `0.4`, which
rounds to a `births` field of `0` and a probability share that rounds to
`0`) and one huge country. -/
def c9Input : RawInput :=
  { birthRateData := [⟨some "AAA", some (2/5)⟩, ⟨some "BBB", some 1000000⟩]
    populationData := [⟨some "AAA", some 1000⟩, ⟨some "BBB", some 1000000⟩]
    gdpData := []
    countryData := [aaaRow, bbbRow] }

/-- Metadata record for `CHN` as stored in the country map. -/
def chnMeta : CountryMeta :=
  { name := "China", iso2Code := "CN", region := "East Asia & Pacific"
    incomeLevel := "Upper middle income", capitalCity := "Beijing"
    longitude := "116", latitude := "40" }

/-- The merged record `buildOutput c1Input` produces for `CHN`
(`10000 / 146000 * 100` rounded to six decimals). -/
def c1Chn : Country :=
  { id := "CHN", name := "China", iso2 := "CN", region := "East Asia & Pacific"
    incomeLevel := "Upper middle income", capital := "Beijing"
    longitude := "116", latitude := "40", birthRate := 10
    population := 1000000, gdpPerCapita := 12000, births := 10000
    weight := 10000, probability := 6849315/1000000 }

/-- The merged record `buildOutput c1Input` produces for the `WLD`
aggregate: the builder admits it (its `iso2Code` `1W` is non-empty and two
characters long) and assigns it a probability share of about `93.15%`. -/
def c1Wld : Country :=
  { id := "WLD", name := "World", iso2 := "1W", region := "Aggregates"
    incomeLevel := "Aggregates", capital := ""
    longitude := "", latitude := "", birthRate := 17
    population := 8000000, gdpPerCapita := 0, births := 136000
    weight := 136000, probability := 93150685/1000000 }

/-- The merged record `buildOutput c9Input` produces for `AAA`: its
unrounded weight `2/5` is positive, but both the rounded `births` field
and the rounded probability are `0`. -/
def c9Aaa : Country :=
  { id := "AAA", name := "Atlantis", iso2 := "AA", region := "RegionA"
    incomeLevel := "", capital := "", longitude := "", latitude := ""
    birthRate := 2/5, population := 1000, gdpPerCapita := 0
    births := 0, weight := 2/5, probability := 0 }

/-- The merged record `buildOutput c9Input` produces for `BBB`. -/
def c9Bbb : Country :=
  { id := "BBB", name := "Borduria", iso2 := "BB", region := "RegionB"
    incomeLevel := "", capital := "", longitude := "", latitude := ""
    birthRate := 1000000, population := 1000000, gdpPerCapita := 0
    births := 1000000000, weight := 1000000000, probability := 100 }

/-! Helper lemmas about rounding. -/

theorem roundHalfAway_abs_sub (x : ℚ) : |(roundHalfAway x : ℚ) - x| ≤ 1/2 := by
  unfold roundHalfAway
  split
  · rw [abs_le]
    constructor
    · have h := Int.lt_floor_add_one (x + 1/2)
      push_cast at h ⊢
      linarith
    · have h := Int.floor_le (x + 1/2)
      push_cast at h ⊢
      linarith
  · rw [abs_le]
    constructor
    · have h := Int.le_ceil (x - 1/2)
      push_cast at h ⊢
      linarith
    · have h := Int.ceil_lt_add_one (x - 1/2)
      push_cast at h ⊢
      linarith

theorem phpRound_abs_sub (x : ℚ) (p : ℕ) : |phpRound x p - x| ≤ 1 / (2 * 10 ^ p) := by
  have h10 : (0:ℚ) < 10 ^ p := by positivity
  have hr := roundHalfAway_abs_sub (x * 10 ^ p)
  have hx : phpRound x p - x = ((roundHalfAway (x * 10 ^ p) : ℚ) - x * 10 ^ p) / 10 ^ p := by
    field_simp [phpRound]
    ring
  rw [hx, abs_div, abs_of_pos h10, div_le_div_iff₀ h10 (by positivity)]
  calc |(roundHalfAway (x * 10 ^ p) : ℚ) - x * 10 ^ p| * (2 * 10 ^ p)
      ≤ (1/2) * (2 * 10 ^ p) := by
        apply mul_le_mul_of_nonneg_right hr (by positivity)
    _ = 1 * 10 ^ p := by ring

theorem phpRound_nonneg {x : ℚ} (p : ℕ) (h : 0 ≤ x) : 0 ≤ phpRound x p := by
  unfold phpRound roundHalfAway
  have hx : 0 ≤ x * 10 ^ p := by positivity
  rw [if_pos hx]
  apply div_nonneg _ (by positivity)
  have hf : 0 ≤ ⌊x * 10 ^ p + 1/2⌋ := Int.floor_nonneg.mpr (by linarith)
  exact_mod_cast hf

theorem phpRound_zero (p : ℕ) : phpRound 0 p = 0 := by
  unfold phpRound roundHalfAway
  rw [zero_mul, if_pos le_rfl, zero_add,
    show ⌊(1/2 : ℚ)⌋ = 0 by norm_num [Int.floor_eq_zero_iff, Set.mem_Ico]]
  norm_num

/-! Helper lemmas about list sums. -/

theorem list_abs_sum_le (l : List ℚ) : |l.sum| ≤ (l.map abs).sum := by
  induction l with
  | nil => simp
  | cons a t ih =>
    simp only [List.sum_cons, List.map_cons]
    calc |a + t.sum| ≤ |a| + |t.sum| := abs_add _ _
      _ ≤ |a| + (t.map abs).sum := by linarith

theorem list_sum_sub {α : Type} (f g : α → ℚ) (l : List α) :
    (l.map f).sum - (l.map g).sum = (l.map fun x => f x - g x).sum := by
  induction l with
  | nil => simp
  | cons a t ih =>
    simp only [List.map_cons, List.sum_cons]
    linarith

theorem list_sum_le_length_mul {α : Type} (f : α → ℚ) (b : ℚ) (l : List α)
    (h : ∀ x ∈ l, f x ≤ b) : (l.map f).sum ≤ l.length * b := by
  induction l with
  | nil => simp
  | cons a t ih =>
    simp only [List.map_cons, List.sum_cons, List.length_cons]
    have h1 : f a ≤ b := h a (List.mem_cons_self a t)
    have h2 : (t.map f).sum ≤ t.length * b := ih fun x hx => h x (List.mem_cons_of_mem _ hx)
    push_cast
    linarith

theorem sum_map_range_const (q : ℚ) (f : ℕ → ℚ) (h : ∀ i, f i = q) (n : ℕ) :
    ((List.range n).map f).sum = n * q := by
  induction n with
  | zero => simp
  | succ n ih =>
    rw [List.range_succ, List.map_append, List.sum_append]
    simp only [List.map_cons, List.map_nil, List.sum_cons, List.sum_nil, ih, h n]
    push_cast
    ring

/-! Helper lemmas about the sampler. -/

theorem drawLoop_mem : ∀ {l : List Country} {r : ℚ} {c : Country},
    drawLoop l r = some c → c ∈ l := by
  intro l
  induction l with
  | nil => intro r c h; simp [drawLoop] at h
  | cons a t ih =>
    intro r c h
    by_cases hr : r - a.births ≤ 0
    · simp only [drawLoop, if_pos hr, Option.some.injEq] at h
      exact h ▸ List.mem_cons_self a t
    · simp only [drawLoop, if_neg hr] at h
      exact List.mem_cons_of_mem _ (ih h)

theorem drawCountry_mem {countries : List Country} {r : ℚ} {c : Country}
    (h : drawCountry countries r = some c) :
    c ∈ countries.filter isRealCountry := by
  simp only [drawCountry] at h
  cases hd : drawLoop (countries.filter isRealCountry) r with
  | some d =>
    rw [hd] at h
    simp only [Option.some.injEq] at h
    exact h ▸ drawLoop_mem hd
  | none =>
    rw [hd] at h
    exact List.mem_of_mem_head? h

theorem drawLoop_exhaust : ∀ (l : List Country) (r : ℚ),
    (∀ c ∈ l, 0 ≤ c.births) → (l.map Country.births).sum < r →
    drawLoop l r = none := by
  intro l
  induction l with
  | nil => intro r _ _; rfl
  | cons a t ih =>
    intro r hnn hsum
    simp only [List.map_cons, List.sum_cons] at hsum
    have hta : 0 ≤ (t.map Country.births).sum := by
      apply List.sum_nonneg
      intro x hx
      obtain ⟨d, hd, rfl⟩ := List.mem_map.mp hx
      exact hnn d (List.mem_cons_of_mem _ hd)
    have hgt : ¬ (r - a.births ≤ 0) := by
      push_neg
      have := hnn a (List.mem_cons_self a t)
      linarith
    simp only [drawLoop, if_neg hgt]
    exact ih (r - a.births) (fun c hc => hnn c (List.mem_cons_of_mem _ hc)) (by linarith)

/-! Helper lemmas about the merge. -/

theorem mergeCountry_some {popIdx gdpIdx : List (String × ℚ)}
    {cmap : List (String × CountryMeta)} {e : String × ℚ} {c : Country}
    (h : mergeCountry popIdx gdpIdx cmap e = some c) :
    c.id = e.1 ∧ phpEmpty c.iso2 = false ∧ c.iso2.length ≤ 2 ∧
      0 < c.population ∧ 0 < c.weight ∧ c.births = phpRound c.weight 0 ∧
      c.weight = e.2 * c.population / 1000 ∧
      c.gdpPerCapita = phpRound ((alookup e.1 gdpIdx).getD 0) 2 ∧
      c.probability = 0 := by
  unfold mergeCountry at h
  cases hp : alookup e.1 popIdx with
  | none => rw [hp] at h; exact absurd h (by simp)
  | some population =>
    cases hm : alookup e.1 cmap with
    | none => rw [hp, hm] at h; exact absurd h (by simp)
    | some meta =>
      rw [hp, hm] at h
      simp only at h
      by_cases h1 : (phpEmpty meta.iso2Code || decide (meta.iso2Code.length > 2)) = true
      · rw [if_pos h1] at h; exact absurd h (by simp)
      · rw [if_neg h1] at h
        simp only [Bool.or_eq_true, decide_eq_true_eq, not_or, Bool.not_eq_true] at h1
        by_cases h2 : 0 < e.2 * population / 1000 ∧ 0 < population
        · rw [if_pos h2] at h
          obtain rfl := Option.some.inj h
          refine ⟨rfl, h1.1, ?_, h2.2, h2.1, rfl, rfl, rfl, rfl⟩
          show meta.iso2Code.length ≤ 2
          omega
        · rw [if_neg h2] at h; exact absurd h (by simp)

theorem mem_buildOutput_countries {input : RawInput} {c : Country}
    (h : c ∈ (buildOutput input).countries) :
    ∃ c₀ ∈ mergedData (buildIndex input.birthRateData) (buildIndex input.populationData)
        (buildIndex input.gdpData) (buildCountryMap input.countryData),
      c = { c₀ with probability :=
              phpRound (c₀.weight /
                totalWeightOf (mergedData (buildIndex input.birthRateData)
                  (buildIndex input.populationData) (buildIndex input.gdpData)
                  (buildCountryMap input.countryData)) * 100) 6 } := by
  simp only [buildOutput] at h
  have h2 := (List.mergeSort_perm _ _).mem_iff.mp h
  rw [computeProbabilities, List.mem_map] at h2
  obtain ⟨c₀, hc₀, rfl⟩ := h2
  exact ⟨c₀, hc₀, rfl⟩

theorem alookup_eq_none {a : List (String × α)} {k : String} :
    alookup k a = none ↔ k ∉ a.map Prod.fst := by
  induction a with
  | nil => simp [alookup]
  | cons p t ih =>
    by_cases hk : k = p.1
    · simp [alookup, hk]
    · simp [alookup, hk, ih]

theorem arraySet_keys_nodup {a : List (String × α)} {k : String} {v : α}
    (h : (a.map Prod.fst).Nodup) : ((arraySet a k v).map Prod.fst).Nodup := by
  unfold arraySet
  split
  · rw [List.map_map]
    have he : ∀ p ∈ a, (Prod.fst ∘ fun p : String × α => if p.1 = k then (k, v) else p) p = Prod.fst p := by
      intro p _
      by_cases hp : p.1 = k
      · simp [hp]
      · simp [hp]
    rw [List.map_congr_left he]
    exact h
  · rename_i hnone
    rw [List.map_append]
    rw [List.nodup_append]
    refine ⟨h, by simp, ?_⟩
    intro x hx hx2
    simp at hx2
    rw [hx2] at hx
    have hk0 : alookup k a = none := by
      cases ha : alookup k a with
      | none => rfl
      | some w => rw [ha] at hnone; simp at hnone
    exact (alookup_eq_none.mp hk0) hx

theorem buildIndex_keys_nodup (rows : List RawIndicatorRow) :
    ((buildIndex rows).map Prod.fst).Nodup := by
  suffices h : ∀ a : List (String × ℚ), (a.map Prod.fst).Nodup →
      ((rows.foldl
        (fun idx row =>
          match row.countryiso3code, row.value with
          | some k, some v => arraySet idx k v
          | _, _ => idx) a).map Prod.fst).Nodup by
    exact h [] (by simp)
  induction rows with
  | nil => intro a ha; exact ha
  | cons row t ih =>
    intro a ha
    simp only [List.foldl_cons]
    apply ih
    rcases hc : row.countryiso3code with _ | k
    · simpa [hc] using ha
    · rcases hv : row.value with _ | v
      · simpa [hc, hv] using ha
      · simpa [hc, hv] using arraySet_keys_nodup ha

theorem filterMap_map_sublist {α β γ : Type} {f : α → Option β} {g : β → γ} {h : α → γ}
    (H : ∀ a b, f a = some b → g b = h a) :
    ∀ l : List α, ((l.filterMap f).map g).Sublist (l.map h) := by
  intro l
  induction l with
  | nil => simp
  | cons a t ih =>
    cases hfa : f a with
    | none =>
      rw [List.filterMap_cons_none hfa, List.map_cons]
      exact ih.cons (h a)
    | some b =>
      rw [List.filterMap_cons_some hfa, List.map_cons, List.map_cons, H a b hfa]
      exact ih.cons₂ (h a)

theorem mem_mergedData {birthIdx popIdx gdpIdx : List (String × ℚ)}
    {cmap : List (String × CountryMeta)} {c : Country}
    (h : c ∈ mergedData birthIdx popIdx gdpIdx cmap) :
    ∃ e ∈ birthIdx, mergeCountry popIdx gdpIdx cmap e = some c :=
  List.mem_filterMap.mp h

theorem totalWeightOf_pos {l : List Country} (hne : l ≠ [])
    (hw : ∀ c ∈ l, 0 < c.weight) : 0 < totalWeightOf l := by
  apply List.sum_pos
  · intro x hx
    obtain ⟨c, hc, rfl⟩ := List.mem_map.mp hx
    exact hw c hc
  · simpa [List.map_eq_nil_iff]

/-! Concrete evaluations of the pipeline. -/

theorem c1_eval : (buildOutput c1Input).countries = [c1Wld, c1Chn] := by
  norm_num +decide [buildOutput, buildIndex, buildCountryMap, arraySet, alookup,
    mergedData, mergeCountry, computeProbabilities, sortByBirths, totalWeightOf,
    phpEmpty, phpRound, roundHalfAway, c1Input, chnRow, wldRowIso2, c1Wld, c1Chn,
    List.mergeSort, List.filterMap]

theorem c6_eval : (buildOutput c6Input).countries = [chnMerged] := by
  norm_num +decide [buildOutput, buildIndex, buildCountryMap, arraySet, alookup,
    mergedData, mergeCountry, computeProbabilities, sortByBirths, totalWeightOf,
    phpEmpty, phpRound, roundHalfAway, c6Input, chnRow, wldRowEmpty, chnMerged,
    List.mergeSort, List.filterMap]

theorem c9_eval : (buildOutput c9Input).countries = [c9Bbb, c9Aaa] := by
  norm_num +decide [buildOutput, buildIndex, buildCountryMap, arraySet, alookup,
    mergedData, mergeCountry, computeProbabilities, sortByBirths, totalWeightOf,
    phpEmpty, phpRound, roundHalfAway, c9Input, aaaRow, bbbRow, c9Aaa, c9Bbb,
    List.mergeSort, List.filterMap]

/-! The claims. -/

/-- C1 (counterexample): the builder and the sampler do not apply the same
eligibility predicate.  On `c1Input` the builder admits the `WLD` aggregate
(its `iso2Code` `1W` is non-empty and two characters long) and assigns it a
probability share of about 93%, yet the sampler's stricter filter
(`[A-Z]{2}` and region ≠ `Aggregates`) excludes it, so no draw can ever
return it: a record that received a probability share is excluded from
sampling. -/
theorem c1_builder_sampler_filters_differ :
    c1Wld ∈ (buildOutput c1Input).countries ∧ 0 < c1Wld.probability ∧
      isRealCountry c1Wld = false ∧
      ∀ r : ℚ, drawCountry (buildOutput c1Input).countries r ≠ some c1Wld := by
  refine ⟨by rw [c1_eval]; exact List.mem_cons_self _ _,
    by norm_num [c1Wld], by decide, ?_⟩
  intro r hr
  have hmem := drawCountry_mem hr
  rw [List.mem_filter] at hmem
  have hfalse : isRealCountry c1Wld = false := by decide
  rw [hfalse] at hmem
  exact Bool.false_ne_true hmem.2

/-- C1 (amended): the sampler's eligible set is contained in the builder's
distribution: every record a draw can return is one of the entries the
builder assigned a probability to, and it satisfies the sampler predicate.
The converse inclusion fails (see the counterexample): records admitted by
the builder's weaker iso2 filter receive a probability share but are never
returnable. -/
theorem c1_amended_sampler_set_subset (countries : List Country) (r : ℚ) (c : Country)
    (h : drawCountry countries r = some c) :
    c ∈ countries ∧ isRealCountry c = true := by
  have hm := drawCountry_mem h
  rw [List.mem_filter] at hm
  exact hm

/-- C1 (witness): a concrete draw from a one-entry distribution. -/
theorem c1_amended_sampler_set_subset_witness :
    chnMerged ∈ [chnMerged] ∧ isRealCountry chnMerged = true :=
  c1_amended_sampler_set_subset [chnMerged] 1 chnMerged (by
    norm_num +decide [drawCountry, drawLoop, isRealCountry, List.filter, chnMerged])

/-- C2 (counterexample): the sampler's running subtraction uses the rounded
`births` field, not the unrounded `weight`.  `c2A` and `c2B` are
merged-shaped records (`births = round(weight)`); at the legitimate random
value `r = 1/5 ∈ [0, totalWeight)` the source sampler returns `c2B`
while the spec's weight-subtracting sampler returns `c2A`. -/
theorem c2_sampler_subtracts_rounded_births :
    c2A.births = phpRound c2A.weight 0 ∧ c2B.births = phpRound c2B.weight 0 ∧
      (0:ℚ) ≤ 1/5 ∧ (1/5 : ℚ) < totalWeightJS [c2A, c2B] ∧
      drawCountry [c2A, c2B] (1/5) = some c2B ∧
      drawCountrySpec [c2A, c2B] (1/5) = some c2A ∧ c2A ≠ c2B := by
  have hf : List.filter isRealCountry [c2A, c2B] = [c2A, c2B] := by
    rw [List.filter_cons_of_pos (by decide), List.filter_cons_of_pos (by decide),
      List.filter_nil]
  refine ⟨?_, ?_, by norm_num, ?_, ?_, ?_, ?_⟩
  · norm_num [phpRound, roundHalfAway, c2A, c2B]
  · norm_num [phpRound, roundHalfAway, c2A, c2B]
  · simp only [totalWeightJS, hf]
    norm_num [c2A, c2B]
  · simp only [drawCountry, hf, drawLoop]
    norm_num [c2A, c2B]
  · simp only [drawCountrySpec, hf, drawLoopSpec]
    norm_num [c2A, c2B]
  · intro h
    exact absurd (congrArg Country.id h) (by decide)

/-- C2 (amended): the builder's probability field is computed from the
unrounded `weight` (and the total of the unrounded weights) — rounding
`births` never feeds into the `probability` field.  The sampler, however,
sums and subtracts the rounded `births` field (see the counterexample). -/
theorem c2_amended_probability_from_unrounded_weight (input : RawInput) (c : Country)
    (h : c ∈ (buildOutput input).countries) :
    c.probability =
      phpRound (c.weight /
        totalWeightOf (mergedData (buildIndex input.birthRateData)
          (buildIndex input.populationData) (buildIndex input.gdpData)
          (buildCountryMap input.countryData)) * 100) 6 := by
  obtain ⟨c₀, _, rfl⟩ := mem_buildOutput_countries h
  rfl

/-- C2 (witness): the probability of the one record of `c6Input`. -/
theorem c2_amended_probability_from_unrounded_weight_witness :
    chnMerged.probability =
      phpRound (chnMerged.weight /
        totalWeightOf (mergedData (buildIndex c6Input.birthRateData)
          (buildIndex c6Input.populationData) (buildIndex c6Input.gdpData)
          (buildCountryMap c6Input.countryData)) * 100) 6 :=
  c2_amended_probability_from_unrounded_weight c6Input chnMerged
    (by rw [c6_eval]; exact List.mem_singleton_self _)

/-- C3 (counterexample): when the weighted-selection loop exhausts every
eligible entry with the remainder still positive, `drawCountry` returns
`realCountries[0]` — the FIRST eligible entry in iteration order, not the
last one the claim states. -/
theorem c3_fallback_returns_first_not_last :
    drawLoop ([c3A, c3B].filter isRealCountry) 100 = none ∧
      drawCountry [c3A, c3B] 100 = some c3A ∧
      ([c3A, c3B].filter isRealCountry).getLast? = some c3B ∧ c3A ≠ c3B := by
  refine ⟨?_, ?_, ?_, ?_⟩ <;>
    norm_num +decide [drawLoop, drawCountry, isRealCountry, List.filter,
      List.getLast?, c3A, c3B]

/-- C3 (amended): if the loop exhausts without a hit (the random value
exceeds the sampler's total weight; the entries' `births` are
non-negative), `drawCountry` deterministically returns the first eligible
entry in iteration order rather than failing. -/
theorem c3_amended_fallback_is_first (countries : List Country) (r : ℚ)
    (h1 : ∀ c ∈ countries.filter isRealCountry, 0 ≤ c.births)
    (h2 : totalWeightJS countries < r) :
    drawCountry countries r = (countries.filter isRealCountry).head? := by
  have hnone := drawLoop_exhaust (countries.filter isRealCountry) r h1 h2
  simp [drawCountry, hnone]

/-- C3 (witness): the exhausted loop at `r = 100` on two entries of total
weight 5. -/
theorem c3_amended_fallback_is_first_witness :
    drawCountry [c3A, c3B] 100 = ([c3A, c3B].filter isRealCountry).head? :=
  c3_amended_fallback_is_first [c3A, c3B] 100
    (by
      have hf : List.filter isRealCountry [c3A, c3B] = [c3A, c3B] := by
        rw [List.filter_cons_of_pos (by decide), List.filter_cons_of_pos (by decide),
          List.filter_nil]
      rw [hf]
      intro c hc
      rcases List.mem_cons.mp hc with rfl | hc2
      · norm_num [c3A]
      · rw [List.mem_singleton.mp hc2]
        norm_num [c3B])
    (by
      have hf : List.filter isRealCountry [c3A, c3B] = [c3A, c3B] := by
        rw [List.filter_cons_of_pos (by decide), List.filter_cons_of_pos (by decide),
          List.filter_nil]
      simp only [totalWeightJS, hf]
      norm_num [c3A, c3B])

/-- C4 (counterexample): with an empty eligible set the builder does not
fail — it emits a success response with an empty `countries` list — and a
single draw does not raise an error: it returns `undefined` (modelled as
`none`). -/
theorem c4_empty_set_yields_success_and_undefined :
    (buildOutput c4Input).success = true ∧ (buildOutput c4Input).countries = [] ∧
      (buildOutput c4Input).totalCountries = 0 ∧
      drawCountry (buildOutput c4Input).countries (1/2) = none := by
  refine ⟨?_, ?_, ?_, ?_⟩ <;>
    norm_num +decide [buildOutput, buildIndex, buildCountryMap, mergedData,
      computeProbabilities, sortByBirths, totalWeightOf, phpRound, roundHalfAway,
      c4Input, drawCountry, drawLoop, List.filter, List.mergeSort]

/-- C4 (amended): when the merge produces no eligible record, the builder
emits a success response with an empty countries list, zero
`totalCountries` and zero `totalBirths` (the probability loop runs zero
times, so no NaN/Infinity arises), and every draw returns `undefined`
(`none`) — there is no `EmptyDistributionError` or `EmptyDistribution`
error path in the code. -/
theorem c4_amended_empty_set_behavior (input : RawInput)
    (h : mergedData (buildIndex input.birthRateData) (buildIndex input.populationData)
        (buildIndex input.gdpData) (buildCountryMap input.countryData) = []) :
    (buildOutput input).success = true ∧ (buildOutput input).countries = [] ∧
      (buildOutput input).totalCountries = 0 ∧ (buildOutput input).totalBirths = 0 ∧
      ∀ r : ℚ, drawCountry (buildOutput input).countries r = none := by
  have hc : (buildOutput input).countries = [] := by
    simp [buildOutput, h, computeProbabilities, sortByBirths]
  refine ⟨rfl, hc, ?_, ?_, ?_⟩
  · simp [buildOutput, h, computeProbabilities, sortByBirths]
  · simp [buildOutput, h, totalWeightOf, phpRound_zero]
  · intro r
    rw [hc]
    rfl

/-- C4 (witness): the empty input. -/
theorem c4_amended_empty_set_behavior_witness :
    (buildOutput c4Input).success = true ∧ (buildOutput c4Input).countries = [] ∧
      (buildOutput c4Input).totalCountries = 0 ∧ (buildOutput c4Input).totalBirths = 0 ∧
      drawCountry (buildOutput c4Input).countries (1/2) = none := by
  have h := c4_amended_empty_set_behavior c4Input
    (by norm_num [mergedData, buildIndex, buildCountryMap, c4Input])
  exact ⟨h.1, h.2.1, h.2.2.1, h.2.2.2.1, h.2.2.2.2 (1/2)⟩

/-- C5 (counterexample): the `± 1e-3` probability-sum bound does not hold
for EVERY merged dataset.  `c5List` holds 2560 positive-weight records
with equal weights; each share `100/2560 = 0.0390625` rounds its sixth
decimal up by `5e-7`, so the rounded probabilities sum to `100.00128`,
missing `100` by more than `1e-3`. -/
theorem c5_probability_sum_exceeds_tolerance :
    c5List ≠ [] ∧ (∀ c ∈ c5List, 0 < c.weight) ∧
      ¬ |sumProb (computeProbabilities c5List (totalWeightOf c5List)) - 100| ≤ 1/1000 := by
  have htw : totalWeightOf c5List = 2560 := by
    rw [totalWeightOf, c5List, List.map_map]
    rw [sum_map_range_const 1 (Country.weight ∘ c5Entry) (fun i => rfl) 2560]
    norm_num
  have hsum : sumProb (computeProbabilities c5List (totalWeightOf c5List))
      = 2560 * (39063/1000000 : ℚ) := by
    rw [htw, sumProb, computeProbabilities, c5List, List.map_map, List.map_map]
    rw [sum_map_range_const (39063/1000000 : ℚ) _ ?hconst 2560]
    · norm_num
    case hconst =>
      intro i
      show phpRound ((c5Entry i).weight / 2560 * 100) 6 = 39063/1000000
      rw [show (c5Entry i).weight = 1 from rfl]
      norm_num [phpRound, roundHalfAway]
  refine ⟨?_, ?_, ?_⟩
  · norm_num [c5List, List.map_eq_nil_iff, List.range_eq_nil]
  · intro c hc
    rw [c5List] at hc
    obtain ⟨i, _, rfl⟩ := List.mem_map.mp hc
    norm_num [c5Entry]
  · rw [hsum]
    have habs : (2560 : ℚ) * (39063/1000000) - 100 = 4/3125 := by norm_num
    rw [habs, abs_of_pos (by norm_num : (0:ℚ) < 4/3125)]
    norm_num

/-- C5 (amended): the probability-sum invariant holds with the drift
bounded by the number of entries: each rounded share is within `5e-7` of
the exact share, so for any merged dataset with at least one
positive-weight entry and at most 2000 entries (the real dataset has a few
hundred) the probabilities sum to `100 ± 1e-3`.  For arbitrarily large
datasets the bound can fail (see the counterexample). -/
theorem c5_amended_probability_sum_bounded (l : List Country)
    (hne : l ≠ []) (hw : ∀ c ∈ l, 0 < c.weight) (hlen : l.length ≤ 2000) :
    |sumProb (computeProbabilities l (totalWeightOf l)) - 100| ≤ 1/1000 := by
  set T := totalWeightOf l with hT
  have hTpos : 0 < T := totalWeightOf_pos hne hw
  have hsumw : (l.map Country.weight).sum = T := hT ▸ rfl
  have hexact : (l.map fun c => c.weight / T * 100).sum = 100 := by
    have hfun : (fun c : Country => c.weight / T * 100)
        = fun c : Country => c.weight * (100 / T) := by
      funext c
      ring
    rw [hfun, List.sum_map_mul_right, hsumw]
    field_simp
  have hrepr : sumProb (computeProbabilities l T)
      = (l.map fun c => phpRound (c.weight / T * 100) 6).sum := by
    rw [sumProb, computeProbabilities, List.map_map]
    apply congrArg
    apply List.map_congr_left
    intro c _
    rfl
  rw [hrepr]
  have hdiff : (l.map fun c => phpRound (c.weight / T * 100) 6).sum - 100
      = (l.map fun c => phpRound (c.weight / T * 100) 6 - c.weight / T * 100).sum :=
    calc (l.map fun c => phpRound (c.weight / T * 100) 6).sum - 100
        = (l.map fun c => phpRound (c.weight / T * 100) 6).sum
            - (l.map fun c => c.weight / T * 100).sum := by rw [hexact]
      _ = (l.map fun c => phpRound (c.weight / T * 100) 6 - c.weight / T * 100).sum :=
          list_sum_sub _ _ l
  rw [hdiff]
  calc |(l.map fun c => phpRound (c.weight / T * 100) 6 - c.weight / T * 100).sum|
      ≤ ((l.map fun c => phpRound (c.weight / T * 100) 6 - c.weight / T * 100).map abs).sum :=
        list_abs_sum_le _
    _ = (l.map fun c => |phpRound (c.weight / T * 100) 6 - c.weight / T * 100|).sum := by
        rw [List.map_map]
        rfl
    _ ≤ l.length * (1 / (2 * 10 ^ 6)) :=
        list_sum_le_length_mul _ _ l (fun c _ => phpRound_abs_sub (c.weight / T * 100) 6)
    _ ≤ 2000 * (1 / (2 * 10 ^ 6)) := by
        apply mul_le_mul_of_nonneg_right _ (by norm_num)
        exact_mod_cast hlen
    _ = 1/1000 := by norm_num

/-- C5 (witness): a one-entry distribution. -/
theorem c5_amended_probability_sum_bounded_witness :
    |sumProb (computeProbabilities [chnMerged] (totalWeightOf [chnMerged])) - 100| ≤ 1/1000 :=
  c5_amended_probability_sum_bounded [chnMerged]
    (by simp)
    (by
      intro c hc
      rw [List.mem_singleton.mp hc]
      norm_num [chnMerged])
    (by norm_num)

/-- C6 (counterexample): a raw record with an empty `iso2` (the `World`
aggregate of `c6Input`) is NOT retained in the pipeline output: the merge
skips it entirely, so it is absent from `countries` and is not counted in
`totalCountries` (which is 1, not 2, although the raw input has two
complete records). -/
theorem c6_empty_iso2_record_not_retained :
    (buildOutput c6Input).totalCountries = 1 ∧
      ∀ c ∈ (buildOutput c6Input).countries, c.id ≠ "WLD" := by
  refine ⟨?_, ?_⟩
  · have h1 : (buildOutput c6Input).totalCountries = (buildOutput c6Input).countries.length := rfl
    rw [h1, c6_eval]
    rfl
  · intro c hc
    rw [c6_eval] at hc
    rw [List.mem_singleton.mp hc]
    decide

/-- C6 (amended): records failing the builder's iso2 filter are dropped
from the output entirely — every record of the output has a non-empty
`iso2` of length at most 2, and `totalCountries` counts exactly the
retained records (so an empty-`iso2` aggregate is neither displayed, nor
counted, nor drawable). -/
theorem c6_amended_filtered_records_dropped (input : RawInput) :
    (buildOutput input).totalCountries = (buildOutput input).countries.length ∧
      ∀ c ∈ (buildOutput input).countries, phpEmpty c.iso2 = false ∧ c.iso2.length ≤ 2 := by
  refine ⟨rfl, ?_⟩
  intro c hc
  obtain ⟨c₀, hc₀, rfl⟩ := mem_buildOutput_countries hc
  obtain ⟨e, _, hmc⟩ := mem_mergedData hc₀
  have hp := mergeCountry_some hmc
  exact ⟨hp.2.1, hp.2.2.1⟩

/-- C6 (witness): the output of `c6Input`. -/
theorem c6_amended_filtered_records_dropped_witness :
    (buildOutput c6Input).totalCountries = (buildOutput c6Input).countries.length ∧
      (phpEmpty chnMerged.iso2 = false ∧ chnMerged.iso2.length ≤ 2) :=
  ⟨(c6_amended_filtered_records_dropped c6Input).1,
    (c6_amended_filtered_records_dropped c6Input).2 chnMerged
      (by rw [c6_eval]; exact List.mem_singleton_self _)⟩

/-- C7: a batch draw performs ten draws, each consuming its own random
value (no shared state), returns exactly 10 results, and tags the i-th
result (0-based) with rank `i + 1`, so the ranks are exactly `1..10`, each
occurring once, in draw order. -/
theorem c7_ten_draw_ranks_and_independence (countries : List Country) (rands : ℕ → ℚ) :
    (performTenDraw countries rands).length = 10 ∧
      (performTenDraw countries rands).map DrawResult.rank = List.range' 1 10 ∧
      ((performTenDraw countries rands).map DrawResult.rank).Nodup ∧
      ∀ i, i < 10 →
        (performTenDraw countries rands)[i]? =
          some { country := drawCountry countries (rands i), rank := i + 1 } := by
  have hrank : (performTenDraw countries rands).map DrawResult.rank = List.range' 1 10 := by
    rw [performTenDraw, List.map_map]
    show (List.range 10).map (fun i => i + 1) = List.range' 1 10
    decide
  refine ⟨by simp [performTenDraw], hrank, by rw [hrank]; decide, ?_⟩
  intro i hi
  rw [performTenDraw, List.getElem?_map, List.getElem?_range hi]
  rfl

/-- C7 (witness): ten draws from the empty distribution with a constant
random source. -/
theorem c7_ten_draw_ranks_and_independence_witness :
    (performTenDraw [] fun _ => 0).length = 10 ∧
      (performTenDraw [] fun _ => 0).map DrawResult.rank = List.range' 1 10 ∧
      ((performTenDraw [] fun _ => 0).map DrawResult.rank).Nodup ∧
      (performTenDraw [] fun _ => 0)[0]? =
        some { country := drawCountry [] 0, rank := 0 + 1 } := by
  have h := c7_ten_draw_ranks_and_independence [] fun _ => 0
  exact ⟨h.1, h.2.1, h.2.2.1, h.2.2.2 0 (by norm_num)⟩

/-- C8: a country present in the birth-rate, population and metadata
tables but absent from the GDP table is still included in the merged
output — GDP is optional and `$gdpIndex[$countryId] ?? 0` defaults the
missing value to `0` — provided its iso2 passes the filter and its births
and population are positive. -/
theorem c8_missing_gdp_defaults_to_zero (birthIdx popIdx gdpIdx : List (String × ℚ))
    (cmap : List (String × CountryMeta)) (cid : String) (rate pop : ℚ)
    (meta : CountryMeta)
    (hb : (cid, rate) ∈ birthIdx)
    (hpop : alookup cid popIdx = some pop)
    (hmeta : alookup cid cmap = some meta)
    (hgdp : alookup cid gdpIdx = none)
    (hiso1 : phpEmpty meta.iso2Code = false)
    (hiso2 : meta.iso2Code.length ≤ 2)
    (hbirths : 0 < rate * pop / 1000)
    (hpos : 0 < pop) :
    ∃ c ∈ mergedData birthIdx popIdx gdpIdx cmap, c.id = cid ∧ c.gdpPerCapita = 0 := by
  obtain ⟨c, hc⟩ : ∃ c, mergeCountry popIdx gdpIdx cmap (cid, rate) = some c := by
    unfold mergeCountry
    rw [hpop, hmeta]
    simp only
    have hcond : ¬ ((phpEmpty meta.iso2Code || decide (meta.iso2Code.length > 2)) = true) := by
      simp [hiso1]
      omega
    rw [if_neg hcond, if_pos ⟨hbirths, hpos⟩]
    exact ⟨_, rfl⟩
  have hp := mergeCountry_some hc
  refine ⟨c, List.mem_filterMap.mpr ⟨(cid, rate), hb, hc⟩, hp.1, ?_⟩
  rw [hp.2.2.2.2.2.2.2.1]
  have hgdp2 : alookup ((cid, rate) : String × ℚ).1 gdpIdx = none := hgdp
  rw [hgdp2]
  simpa using phpRound_zero 2

/-- C8 (witness): one country, empty GDP table. -/
theorem c8_missing_gdp_defaults_to_zero_witness :
    ∃ c ∈ mergedData [("CHN", 10)] [("CHN", 1000000)] [] [("CHN", chnMeta)],
      c.id = "CHN" ∧ c.gdpPerCapita = 0 :=
  c8_missing_gdp_defaults_to_zero [("CHN", 10)] [("CHN", 1000000)] [] [("CHN", chnMeta)]
    "CHN" 10 1000000 chnMeta
    (by simp)
    (by simp [alookup])
    (by simp [alookup])
    (by simp [alookup])
    (by decide)
    (by decide)
    (by norm_num)
    (by norm_num)

/-- C9 (counterexample): a merged record need not have strictly positive
`births` and `probability`: on `c9Input` the record for `AAA` has positive
unrounded weight `2/5`, yet its rounded `births` field is `0` and its
probability share rounds to `0`. -/
theorem c9_rounded_births_and_probability_can_be_zero :
    c9Aaa ∈ (buildOutput c9Input).countries ∧
      ¬ 0 < c9Aaa.births ∧ ¬ 0 < c9Aaa.probability ∧ 0 < c9Aaa.weight := by
  refine ⟨by rw [c9_eval]; exact List.mem_cons_of_mem _ (List.mem_singleton_self _),
    ?_, ?_, ?_⟩ <;> norm_num [c9Aaa]

/-- C9 (amended): every merged record has strictly positive `population`
and `weight` (the unrounded births), while the rounded `births` field and
the rounded `probability` are merely non-negative (each can be `0`, see
the counterexample); whenever the countries list is non-empty the total of
the unrounded weights is strictly positive. -/
theorem c9_amended_positive_population_and_weight (input : RawInput) :
    (∀ c ∈ (buildOutput input).countries,
        0 < c.population ∧ 0 < c.weight ∧ 0 ≤ c.births ∧ 0 ≤ c.probability) ∧
      ((buildOutput input).countries ≠ [] →
        0 < totalWeightOf (buildOutput input).countries) := by
  have hmain : ∀ c ∈ (buildOutput input).countries,
      0 < c.population ∧ 0 < c.weight ∧ 0 ≤ c.births ∧ 0 ≤ c.probability := by
    intro c hc
    obtain ⟨c₀, hc₀, rfl⟩ := mem_buildOutput_countries hc
    obtain ⟨e, _, hmc⟩ := mem_mergedData hc₀
    have hp := mergeCountry_some hmc
    have hpop : 0 < c₀.population := hp.2.2.2.1
    have hwt : 0 < c₀.weight := hp.2.2.2.2.1
    refine ⟨hpop, hwt, ?_, ?_⟩
    · show 0 ≤ c₀.births
      rw [hp.2.2.2.2.2.1]
      exact phpRound_nonneg 0 (le_of_lt hwt)
    · show 0 ≤ phpRound (c₀.weight /
        totalWeightOf (mergedData (buildIndex input.birthRateData)
          (buildIndex input.populationData) (buildIndex input.gdpData)
          (buildCountryMap input.countryData)) * 100) 6
      apply phpRound_nonneg
      apply mul_nonneg _ (by norm_num)
      apply div_nonneg (le_of_lt hwt)
      apply List.sum_nonneg
      intro x hx
      obtain ⟨d, hd, rfl⟩ := List.mem_map.mp hx
      obtain ⟨e₂, _, hmc₂⟩ := mem_mergedData hd
      exact le_of_lt (mergeCountry_some hmc₂).2.2.2.2.1
  refine ⟨hmain, ?_⟩
  intro hne
  apply totalWeightOf_pos hne
  intro c hc
  exact (hmain c hc).2.1

/-- C9 (witness): the output of `c6Input`. -/
theorem c9_amended_positive_population_and_weight_witness :
    (0 < chnMerged.population ∧ 0 < chnMerged.weight ∧ 0 ≤ chnMerged.births ∧
        0 ≤ chnMerged.probability) ∧
      0 < totalWeightOf (buildOutput c6Input).countries := by
  have h := c9_amended_positive_population_and_weight c6Input
  refine ⟨h.1 chnMerged (by rw [c6_eval]; exact List.mem_singleton_self _), ?_⟩
  apply h.2
  rw [c6_eval]
  simp

/-- C10: the per-indicator indexes are keyed by `countryiso3code` (later
raw rows overwrite earlier ones, so the keys of the birth-rate index are
pairwise distinct) and the merge visits each key once, so every 3-letter
code appears at most once among the ids of the output countries — no
country is double-counted. -/
theorem c10_country_ids_unique (input : RawInput) :
    ((buildIndex input.birthRateData).map Prod.fst).Nodup ∧
      ((buildOutput input).countries.map Country.id).Nodup := by
  refine ⟨buildIndex_keys_nodup _, ?_⟩
  simp only [buildOutput, sortByBirths]
  have hids : (computeProbabilities
        (mergedData (buildIndex input.birthRateData) (buildIndex input.populationData)
          (buildIndex input.gdpData) (buildCountryMap input.countryData))
        (totalWeightOf (mergedData (buildIndex input.birthRateData)
          (buildIndex input.populationData) (buildIndex input.gdpData)
          (buildCountryMap input.countryData)))).map Country.id
      = (mergedData (buildIndex input.birthRateData) (buildIndex input.populationData)
          (buildIndex input.gdpData) (buildCountryMap input.countryData)).map Country.id := by
    rw [computeProbabilities, List.map_map]
    exact List.map_congr_left fun c _ => rfl
  have hXnodup : ((computeProbabilities
        (mergedData (buildIndex input.birthRateData) (buildIndex input.populationData)
          (buildIndex input.gdpData) (buildCountryMap input.countryData))
        (totalWeightOf (mergedData (buildIndex input.birthRateData)
          (buildIndex input.populationData) (buildIndex input.gdpData)
          (buildCountryMap input.countryData)))).map Country.id).Nodup := by
    rw [hids, mergedData]
    exact (filterMap_map_sublist (fun a b hab => (mergeCountry_some hab).1) _).nodup
      (buildIndex_keys_nodup _)
  exact (((List.mergeSort_perm _ _).map Country.id).symm).nodup hXnodup

end BirthLottery
